import Mathlib

/-!
Verification development for the xgb-model streaming trading server.

The Python sources are shallowly embedded here:

* strings are `List Char`; Python `str.split` / `str.strip` are embedded
  directly (`splitOnChar`, `pyStrip`, `extractLines`, `splitDelim`);
* the frame decoder `DataHandler.process_data_chunk` (src/data_handler.py)
  is `feed` / `feedAll`, at the level of the framing events it produces;
* numeric fields are exact rationals built with `mkRat`; the external
  parsers `float(...)` and `pandas.to_datetime(...)` are modelled by
  `parseFloat` and `parseTsModel` on the plain-decimal / digit-string
  inputs this development evaluates;
* `process_historical_data` (src/historical_data.py), the per-message
  session loop of `handle_client` (src/tcp_connection.py), the window
  trim (`DataHandler._add_bar_to_dataframe` and tcp_connection lines
  205-219) and the decision core of `generate_signals`
  (src/signal_generator.py) are embedded as executable functions;
* the numerical indicator series, the XGBoost fit and the model scoring
  are the spec's external collaborators: they enter as function
  parameters, while every column access, validation, control-flow branch
  and threshold of the sources is embedded exactly.
-/

deriving instance DecidableEq for Except

namespace XgbSpec

/-! ## Python string primitives -/

/-- Python whitespace as used by `str.strip()`. -/
def isPySpace (c : Char) : Bool :=
  c = ' ' || c = '\t' || c = '\n' || c = '\r' || c = '\x0b' || c = '\x0c'

/-- Python `s.strip()`: drop leading and trailing whitespace. -/
def pyStrip (s : List Char) : List Char :=
  ((s.dropWhile isPySpace).reverse.dropWhile isPySpace).reverse

/-- Python `s.split(sep)` for a one-character separator: `""` gives `[""]`,
separators at the ends give empty pieces, exactly as in Python. -/
def splitOnChar (sep : Char) : List Char → List (List Char)
  | [] => [[]]
  | c :: rest =>
    let r := splitOnChar sep rest
    if c = sep then [] :: r
    else
      match r with
      | [] => [[c]]
      | x :: xs => (c :: x) :: xs

/-- Worker for the `while '\n' in buffer` loop of the sources: `cur` is the
reversed portion of the current (not yet newline-terminated) line. Returns
the complete lines, in order, and the trailing partial line. -/
def splitLinesAux : List Char → List Char → List (List Char) × List Char
  | cur, [] => ([], cur.reverse)
  | cur, c :: rest =>
    if c = '\n' then
      let p := splitLinesAux [] rest
      (cur.reverse :: p.1, p.2)
    else splitLinesAux (c :: cur) rest

/-- `line, buffer = buffer.split('\n', 1)` repeated until no newline is left:
the complete lines and the retained partial tail. -/
def extractLines (s : List Char) : List (List Char) × List Char :=
  splitLinesAux [] s

/-- `config.DELIMITER` from src/config.py. -/
def DELIMITER : List Char := ['|', '|']

/-- Python `buffer.split("||", 1)` combined with `"||" in buffer`: `some
(before, after)` splits at the first occurrence of the two-character batch
delimiter, `none` means the delimiter does not occur. -/
def splitDelim : List Char → Option (List Char × List Char)
  | [] => none
  | [_] => none
  | c1 :: c2 :: rest =>
    if c1 = '|' ∧ c2 = '|' then some ([], rest)
    else
      match splitDelim (c2 :: rest) with
      | none => none
      | some p => some (c1 :: p.1, p.2)

/-- `config.DELIMITER in message`. -/
def containsDelim (s : List Char) : Bool := (splitDelim s).isSome

/-- `message.split(config.DELIMITER)[0]` (the text before the first
delimiter; the whole message when there is none). -/
def beforeDelim (s : List Char) : List Char :=
  match splitDelim s with
  | some p => p.1
  | none => s

/-! ## Frame decoder (src/data_handler.py, `DataHandler.process_data_chunk`)

One event per framing action of `process_data_chunk`: a `batch` for the
text split off before the first delimiter occurrence in the buffer, and a
`line` for each complete, nonempty (after strip) newline-terminated line
handed to `_parse_bar_data`. -/

inductive FrameEvent where
  | batch : List Char → FrameEvent
  | line : List Char → FrameEvent
deriving DecidableEq, Repr

/-- The per-line half of `process_data_chunk`: every complete line is
stripped; empty lines are skipped, the rest are emitted. -/
def emitLines (ls : List (List Char)) : List FrameEvent :=
  ls.filterMap fun l =>
    let d := pyStrip l
    if d = [] then none else some (FrameEvent.line d)

/-- `DataHandler.process_data_chunk(chunk)` at the framing level: append the
chunk to the buffer; if the delimiter occurs, split at its first occurrence
and emit the prefix as one historical batch; then extract every complete
line from the retained buffer. Returns the new buffer and the events. -/
def feed (buf chunk : List Char) : List Char × List FrameEvent :=
  let b := buf ++ chunk
  match splitDelim b with
  | some p =>
    let q := extractLines p.2
    (q.2, FrameEvent.batch p.1 :: emitLines q.1)
  | none =>
    let q := extractLines b
    (q.2, emitLines q.1)

/-- Feeding a sequence of chunks through the decoder, from a given buffer,
collecting all emitted events in order. -/
def feedAll : List Char → List (List Char) → List Char × List FrameEvent
  | buf, [] => (buf, [])
  | buf, c :: cs =>
    let p := feed buf c
    let q := feedAll p.1 cs
    (q.1, p.2 ++ q.2)

/-! ## Line-machine lemmas -/

theorem splitLinesAux_append (a : List Char) : ∀ (cur b : List Char),
    splitLinesAux cur (a ++ b)
      = ((splitLinesAux cur a).1
           ++ (splitLinesAux ((splitLinesAux cur a).2.reverse) b).1,
         (splitLinesAux ((splitLinesAux cur a).2.reverse) b).2) := by
  induction a with
  | nil =>
    intro cur b
    simp [splitLinesAux]
  | cons c a ih =>
    intro cur b
    by_cases hc : c = '\n'
    · subst hc
      simp [splitLinesAux, ih []]
    · simp [splitLinesAux, hc, ih (c :: cur)]

theorem splitLinesAux_of_no_nl : ∀ (s : List Char), (∀ c ∈ s, c ≠ '\n') →
    ∀ (cur : List Char), splitLinesAux cur s = ([], cur.reverse ++ s) := by
  intro s
  induction s with
  | nil => intro _ cur; simp [splitLinesAux]
  | cons c s ih =>
    intro h cur
    have hc : c ≠ '\n' := h c (by simp)
    have hs : ∀ x ∈ s, x ≠ '\n' := fun x hx => h x (by simp [hx])
    simp [splitLinesAux, hc, ih hs (c :: cur)]

theorem splitLinesAux_prefix_no_nl : ∀ (r : List Char), (∀ c ∈ r, c ≠ '\n') →
    ∀ (cur z : List Char),
      splitLinesAux cur (r ++ z) = splitLinesAux (r.reverse ++ cur) z := by
  intro r
  induction r with
  | nil => intro _ cur z; simp
  | cons c r ih =>
    intro h cur z
    have hc : c ≠ '\n' := h c (by simp)
    have hr : ∀ x ∈ r, x ≠ '\n' := fun x hx => h x (by simp [hx])
    simp [splitLinesAux, hc, ih hr (c :: cur) z, List.append_assoc]

theorem splitLinesAux_rem_pred (P : Char → Prop) :
    ∀ (s cur : List Char), (∀ c ∈ cur, P c) → (∀ c ∈ s, P c) →
      ∀ c ∈ (splitLinesAux cur s).2, P c := by
  intro s
  induction s with
  | nil =>
    intro cur hcur _ c hc
    simp only [splitLinesAux] at hc
    exact hcur c (by simpa using hc)
  | cons x s ih =>
    intro cur hcur hs c hc
    have hx : P x := hs x (by simp)
    have hs' : ∀ c ∈ s, P c := fun c hc => hs c (by simp [hc])
    by_cases hnl : x = '\n'
    · subst hnl
      simp only [splitLinesAux, if_pos rfl] at hc
      exact ih [] (by simp) hs' c hc
    · simp only [splitLinesAux, if_neg hnl] at hc
      refine ih (x :: cur) ?_ hs' c hc
      intro y hy
      rcases List.mem_cons.1 hy with h | h
      · exact h ▸ hx
      · exact hcur y h

theorem splitLinesAux_rem_no_nl :
    ∀ (s cur : List Char), (∀ c ∈ cur, c ≠ '\n') →
      ∀ c ∈ (splitLinesAux cur s).2, c ≠ '\n' := by
  intro s
  induction s with
  | nil =>
    intro cur hcur c hc
    simp only [splitLinesAux] at hc
    exact hcur c (by simpa using hc)
  | cons x s ih =>
    intro cur hcur c hc
    by_cases hnl : x = '\n'
    · subst hnl
      simp only [splitLinesAux, if_pos rfl] at hc
      exact ih [] (by simp) c hc
    · simp only [splitLinesAux, if_neg hnl] at hc
      refine ih (x :: cur) ?_ c hc
      intro y hy
      rcases List.mem_cons.1 hy with h | h
      · exact h ▸ hnl
      · exact hcur y h

theorem extractLines_rem_no_nl (a : List Char) :
    ∀ c ∈ (extractLines a).2, c ≠ '\n' :=
  splitLinesAux_rem_no_nl a [] (by simp)

theorem extractLines_append (a z : List Char) :
    extractLines (a ++ z)
      = ((extractLines a).1 ++ (extractLines ((extractLines a).2 ++ z)).1,
         (extractLines ((extractLines a).2 ++ z)).2) := by
  have h1 := splitLinesAux_append a [] z
  have h2 := splitLinesAux_prefix_no_nl (extractLines a).2
    (extractLines_rem_no_nl a) [] z
  simp only [extractLines] at h1 h2 ⊢
  simp only [List.append_nil] at h2
  rw [h1, h2]

theorem extractLines_of_no_nl (s : List Char) (h : ∀ c ∈ s, c ≠ '\n') :
    extractLines s = ([], s) := by
  simpa [extractLines] using splitLinesAux_of_no_nl s h []

/-! ## Delimiter-search lemmas -/

theorem splitDelim_cons_of_ne (c : Char) (t : List Char) (hc : c ≠ '|') :
    splitDelim (c :: t) = (splitDelim t).map (fun p => (c :: p.1, p.2)) := by
  cases t with
  | nil => simp [splitDelim]
  | cons c2 rest =>
    have : ¬ (c = '|' ∧ c2 = '|') := fun h => hc h.1
    simp only [splitDelim, if_neg this]
    cases splitDelim (c2 :: rest) <;> simp

theorem splitDelim_delim_head (r : List Char) :
    splitDelim ('|' :: '|' :: r) = some ([], r) := by
  simp [splitDelim]

theorem splitDelim_none_of_no_pipe : ∀ (s : List Char), (∀ c ∈ s, c ≠ '|') →
    splitDelim s = none := by
  intro s
  induction s with
  | nil => intro _; rfl
  | cons c t ih =>
    intro h
    have hc : c ≠ '|' := h c (by simp)
    have ht : ∀ x ∈ t, x ≠ '|' := fun x hx => h x (by simp [hx])
    rw [splitDelim_cons_of_ne c t hc, ih ht]
    rfl

theorem splitDelim_pipe_last (x : List Char) (h : ∀ c ∈ x, c ≠ '|') :
    splitDelim (x ++ ['|']) = none := by
  induction x with
  | nil => rfl
  | cons c t ih =>
    have hc : c ≠ '|' := h c (by simp)
    have ht : ∀ y ∈ t, y ≠ '|' := fun y hy => h y (by simp [hy])
    rw [List.cons_append, splitDelim_cons_of_ne c _ hc, ih ht]
    rfl

theorem splitDelim_first (H r : List Char) (h : ∀ c ∈ H, c ≠ '|') :
    splitDelim (H ++ '|' :: '|' :: r) = some (H, r) := by
  induction H with
  | nil => simpa using splitDelim_delim_head r
  | cons c t ih =>
    have hc : c ≠ '|' := h c (by simp)
    have ht : ∀ y ∈ t, y ≠ '|' := fun y hy => h y (by simp [hy])
    rw [List.cons_append, splitDelim_cons_of_ne c _ hc, ih ht]
    rfl

theorem splitDelim_of_prefix (H b rest : List Char)
    (hb : b ++ rest = H ++ ['|']) (hH : ∀ c ∈ H, c ≠ '|') :
    splitDelim b = none := by
  rcases List.append_eq_append_iff.1 hb with ⟨a', ha1, _⟩ | ⟨c', hc1, hc2⟩
  · -- b is a prefix of H
    refine splitDelim_none_of_no_pipe b ?_
    intro c hc
    exact hH c (ha1 ▸ List.mem_append.2 (Or.inl hc))
  · -- b = H ++ c' with c' ++ rest = ['|']
    cases c' with
    | nil =>
      simp only [List.append_nil] at hc1
      exact hc1 ▸ splitDelim_none_of_no_pipe H hH
    | cons x xs =>
      have h' : x :: (xs ++ rest) = ['|'] := by simpa using hc2.symm
      simp only [List.cons.injEq] at h'
      have hxs : xs = [] := (List.append_eq_nil.1 h'.2).1
      subst hxs
      rw [hc1, h'.1]
      exact splitDelim_pipe_last H hH

/-! ## Frame-decoder invariance -/

theorem emitLines_append (a b : List (List Char)) :
    emitLines (a ++ b) = emitLines a ++ emitLines b := by
  simp [emitLines, List.filterMap_append]

/-- Once no pipe character can occur, the decoder is the pure line machine,
and feeding any chunk split is the same as feeding the concatenation. -/
theorem feedAll_no_pipe :
    ∀ (cs : List (List Char)) (b : List Char),
      (∀ c ∈ b, c ≠ '|') → (∀ c ∈ b, c ≠ '\n') →
      (∀ ch ∈ cs, ∀ c ∈ ch, c ≠ '|') →
      feedAll b cs
        = ((extractLines (b ++ cs.flatten)).2,
           emitLines (extractLines (b ++ cs.flatten)).1) := by
  intro cs
  induction cs with
  | nil =>
    intro b _ hbnl _
    simp [feedAll, extractLines_of_no_nl b hbnl, emitLines]
  | cons c cs ih =>
    intro b hbp hbnl hcs
    have hbc : ∀ x ∈ b ++ c, x ≠ '|' := by
      intro x hx
      rcases List.mem_append.1 hx with h | h
      · exact hbp x h
      · exact hcs c (by simp) x h
    have hsd : splitDelim (b ++ c) = none := splitDelim_none_of_no_pipe _ hbc
    have hremp : ∀ x ∈ (extractLines (b ++ c)).2, x ≠ '|' :=
      splitLinesAux_rem_pred (fun x => x ≠ '|') (b ++ c) [] (by simp) hbc
    have hremnl := extractLines_rem_no_nl (b ++ c)
    have hcs' : ∀ ch ∈ cs, ∀ x ∈ ch, x ≠ '|' :=
      fun ch hch x hx => hcs ch (by simp [hch]) x hx
    have hrec := ih (extractLines (b ++ c)).2 hremp hremnl hcs'
    have happ := extractLines_append (b ++ c) cs.flatten
    simp only [feedAll, feed, hsd]
    rw [hrec]
    simp only [List.flatten_cons, ← List.append_assoc, happ, emitLines_append]

/-- Main splitting lemma: from any buffer that is still a prefix of
`H ++ "|"`, delivering the rest of the payload `H ++ "||" ++ R` in any
chunks yields exactly one batch event for `H` followed by the line events
of `R`. -/
theorem feedAll_delim_split (H R : List Char)
    (hHnl : ∀ c ∈ H, c ≠ '\n') (hHp : ∀ c ∈ H, c ≠ '|')
    (hRp : ∀ c ∈ R, c ≠ '|') :
    ∀ (cs : List (List Char)) (b : List Char),
      (∃ rest, b ++ rest = H ++ ['|']) →
      b ++ cs.flatten = H ++ '|' :: '|' :: R →
      feedAll b cs
        = ((extractLines R).2,
           FrameEvent.batch H :: emitLines (extractLines R).1) := by
  intro cs
  induction cs with
  | nil =>
    intro b hpre hjoin
    exfalso
    obtain ⟨rest, hrest⟩ := hpre
    have h1 : b.length + rest.length = H.length + 1 := by
      have := congrArg List.length hrest
      simpa using this
    have h2 : b.length = H.length + (R.length + 1 + 1) := by
      have := congrArg List.length hjoin
      simpa using this
    omega
  | cons c cs ih =>
    intro b hpre hjoin
    have hjoin' : (b ++ c) ++ cs.flatten = H ++ '|' :: '|' :: R := by
      simpa [List.append_assoc] using hjoin
    have hsplit : (b ++ c) ++ cs.flatten = (H ++ ['|']) ++ ('|' :: R) := by
      simpa [List.append_assoc] using hjoin'
    have hmemHd : ∀ x ∈ H ++ ['|'], x ≠ '\n' := by
      intro x hx
      rcases List.mem_append.1 hx with h | h
      · exact hHnl x h
      · simp at h
        simp [h]
    rcases List.append_eq_append_iff.1 hsplit with ⟨a', ha1, _⟩ | ⟨c', hc1, hc2⟩
    · -- the delimiter is still not complete: nothing is emitted
      have hnone : splitDelim (b ++ c) = none :=
        splitDelim_of_prefix H (b ++ c) a' ha1.symm hHp
      have hnl : ∀ x ∈ b ++ c, x ≠ '\n' := by
        intro x hx
        exact hmemHd x (ha1 ▸ List.mem_append.2 (Or.inl hx))
      have hfeed : feed b c = (b ++ c, []) := by
        simp [feed, hnone, extractLines_of_no_nl (b ++ c) hnl, emitLines]
      simp only [feedAll, hfeed]
      simpa using ih (b ++ c) ⟨a', ha1.symm⟩ hjoin'
    · cases c' with
      | nil =>
        -- the buffer ends exactly at "H|": still nothing emitted
        simp only [List.append_nil] at hc1
        have hnone : splitDelim (b ++ c) = none := by
          rw [hc1]; exact splitDelim_pipe_last H hHp
        have hnl : ∀ x ∈ b ++ c, x ≠ '\n' := by
          intro x hx
          exact hmemHd x (hc1 ▸ hx)
        have hfeed : feed b c = (b ++ c, []) := by
          simp [feed, hnone, extractLines_of_no_nl (b ++ c) hnl, emitLines]
        simp only [feedAll, hfeed]
        exact (by simpa using ih (b ++ c) ⟨[], by simp [hc1]⟩ hjoin')
      | cons x c'' =>
        -- the chunk completes the delimiter: the batch is emitted now
        have h' : x :: (c'' ++ cs.flatten) = '|' :: R := by simpa using hc2.symm
        simp only [List.cons.injEq] at h'
        obtain ⟨hx, hR⟩ := h'
        subst hx
        have hb' : b ++ c = H ++ '|' :: '|' :: c'' := by
          rw [hc1]; simp [List.append_assoc]
        have hsome : splitDelim (b ++ c) = some (H, c'') := by
          rw [hb']; exact splitDelim_first H c'' hHp
        have hc''p : ∀ y ∈ c'', y ≠ '|' := by
          intro y hy
          exact hRp y (hR ▸ List.mem_append.2 (Or.inl hy))
        have hremp : ∀ y ∈ (extractLines c'').2, y ≠ '|' :=
          splitLinesAux_rem_pred (fun y => y ≠ '|') c'' [] (by simp) hc''p
        have hremnl := extractLines_rem_no_nl c''
        have hcsp : ∀ ch ∈ cs, ∀ y ∈ ch, y ≠ '|' := by
          intro ch hch y hy
          refine hRp y (hR ▸ List.mem_append.2 (Or.inr ?_))
          exact List.mem_flatten.2 ⟨ch, hch, hy⟩
        have hrec := feedAll_no_pipe cs (extractLines c'').2 hremp hremnl hcsp
        have happ := extractLines_append c'' cs.flatten
        simp only [feedAll, feed, hsome]
        rw [hrec, ← hR, happ, emitLines_append]
        simp

/-- C1, amended: chunk-boundary invariance of the frame decoder holds for
payloads whose historical section is a single line (no interior line break)
and whose content outside the two delimiter characters is pipe-free. -/
theorem C1_amended_chunk_invariance (H R : List Char)
    (chunks : List (List Char))
    (hHnl : ∀ c ∈ H, c ≠ '\n') (hHp : ∀ c ∈ H, c ≠ '|')
    (hRp : ∀ c ∈ R, c ≠ '|')
    (hjoin : chunks.flatten = H ++ '|' :: '|' :: R) :
    feedAll [] chunks = feedAll [] [H ++ '|' :: '|' :: R] := by
  have hmulti := feedAll_delim_split H R hHnl hHp hRp chunks []
    ⟨H ++ ['|'], by simp⟩ (by simpa using hjoin)
  have hsingle := feedAll_delim_split H R hHnl hHp hRp [H ++ '|' :: '|' :: R] []
    ⟨H ++ ['|'], by simp⟩ (by simp)
  rw [hmulti, hsingle]

/-- The counterexample payload: a two-line historical section, then the
delimiter, then one bar line. -/
def c1PayloadFull : List Char :=
  "1,1,1,1,1,1\n2,1,1,1,1,1\n||3,1,1,1,1,1\n".toList

/-- First chunk of the split: exactly the first historical line. -/
def c1Chunk1 : List Char := "1,1,1,1,1,1\n".toList

/-- Second chunk of the split: the rest of the payload. -/
def c1Chunk2 : List Char := "2,1,1,1,1,1\n||3,1,1,1,1,1\n".toList

/-- C1, counterexample: for this valid historical-batch-then-bar-lines
payload, splitting the bytes after the first historical line changes the
emitted frame events (the first line leaks out as a `BarLine` and the
batch shrinks), so framing is not chunk-boundary-invariant. -/
theorem C1_counterexample :
    c1Chunk1 ++ c1Chunk2 = c1PayloadFull ∧
    feedAll [] [c1Chunk1, c1Chunk2] ≠ feedAll [] [c1PayloadFull] := by
  constructor
  · decide
  · decide

/-- Historical section for the C1 witness. -/
def c1H : List Char := "1,1,1,1,1,1".toList

/-- Bar-line section for the C1 witness. -/
def c1R : List Char := "2,2,2,2,2,2\n".toList

/-- A chunk split of the witness payload that cuts the delimiter in half. -/
def c1W1 : List Char := "1,1,1,1,1,1|".toList

/-- Second witness chunk. -/
def c1W2 : List Char := "|2,2,2,2,2,2\n".toList

/-- Witness for the amended C1 theorem at a concrete payload and split. -/
theorem C1_witness :
    feedAll [] [c1W1, c1W2] = feedAll [] [c1H ++ '|' :: '|' :: c1R] :=
  C1_amended_chunk_invariance c1H c1R [c1W1, c1W2]
    (by decide) (by decide) (by decide) (by decide)

/-! ## Numeric field parsing

The sources parse fields with Python `float(...)` and
`pandas.to_datetime(...)`. These external parsers are modelled exactly on
the input space this development evaluates: plain optionally-signed
decimal strings for floats, digit strings (e.g. `"20240101"`, format
YYYYMMDD, on which the numeric order is the chronological order) for
timestamps. All values are exact rationals built with `mkRat`. -/

/-- Numeric value of an all-digit string. -/
def natOfDigits (s : List Char) : ℕ :=
  s.foldl (fun a c => 10 * a + (c.toNat - 48)) 0

/-- Every character is a decimal digit. -/
def allDigits (s : List Char) : Bool := s.all Char.isDigit

/-- Unsigned part of the `float(...)` model: `digits`, `digits.digits`,
`digits.` or `.digits`. -/
def parseUnsigned (t : List Char) : Option ℚ :=
  match splitOnChar '.' t with
  | [ip] =>
    if ip ≠ [] ∧ allDigits ip then some (mkRat (natOfDigits ip) 1) else none
  | [ip, fp] =>
    if (ip ≠ [] ∨ fp ≠ []) ∧ allDigits ip ∧ allDigits fp then
      some (mkRat (natOfDigits ip * 10 ^ fp.length + natOfDigits fp)
        (10 ^ fp.length))
    else none
  | _ => none

/-- Model of Python `float(s)`: strip whitespace, optional sign, plain
decimal body; anything else (as with every non-numeric field below) fails,
as `float` raises `ValueError`. -/
def parseFloat (s : List Char) : Option ℚ :=
  match pyStrip s with
  | '-' :: r => (parseUnsigned r).map (fun q => -q)
  | '+' :: r => parseUnsigned r
  | t => parseUnsigned t

/-- Model of `pandas.to_datetime` on the digit-string timestamps used here:
the value of the digit string (order-isomorphic to the dates on the fixed
YYYYMMDD width); any other string is rejected as pandas raises. -/
def parseTsModel (s : List Char) : Option ℚ :=
  let t := pyStrip s
  if t ≠ [] ∧ allDigits t then some (mkRat (natOfDigits t) 1) else none

/-! ## Data model and configuration -/

/-- One OHLCV row of the per-connection DataFrame (columns Timestamp, Open,
High, Low, Close, Volume). -/
structure BarRow where
  ts : ℚ
  o : ℚ
  hi : ℚ
  lo : ℚ
  cl : ℚ
  vol : ℚ
deriving DecidableEq, Repr

/-- The six-column OHLCV frame. -/
abbrev Df := List BarRow

/-- `config.TRAINING_WINDOW` (src/config.py). -/
def TRAINING_WINDOW : ℕ := 5000

/-- `config.RETRAIN_INTERVAL` (src/config.py). -/
def RETRAIN_INTERVAL : ℕ := 100

/-- `config.EMA_FAST` (src/config.py). -/
def EMA_FAST : ℕ := 12

/-- `config.EMA_SLOW` (src/config.py). -/
def EMA_SLOW : ℕ := 26

/-- `config.RSI_PERIOD` (src/config.py). -/
def RSI_PERIOD : ℕ := 14

/-- `config.XGB_RANDOM_STATE` (src/config.py). -/
def XGB_RANDOM_STATE : ℕ := 42

/-- Column access `df[name]` on the six-column OHLCV frame built by
`process_historical_data` and the real-time path: any other name raises
`KeyError`, returned here as `.error`. -/
def dfCol (df : Df) (name : String) : Except String (List ℚ) :=
  if name = "Timestamp" then .ok (df.map BarRow.ts)
  else if name = "Open" then .ok (df.map BarRow.o)
  else if name = "High" then .ok (df.map BarRow.hi)
  else if name = "Low" then .ok (df.map BarRow.lo)
  else if name = "Close" then .ok (df.map BarRow.cl)
  else if name = "Volume" then .ok (df.map BarRow.vol)
  else .error ("KeyError: " ++ name)

/-! ## Historical batch processing (src/historical_data.py) -/

/-- One candidate line of a historical batch (lines 39-47 of the source):
kept only if it splits into exactly 6 comma fields; malformed lines are
counted and discarded. -/
def parseHistLine (l : List Char) : Option (List (List Char)) :=
  let parts := splitOnChar ',' l
  if parts.length = 6 then some parts else none

/-- The column conversions of lines 69-86 (`pd.to_datetime` on the
Timestamp column, `.astype(float)` on the five numeric columns), applied
row-wise: a failure anywhere fails the whole conversion, exactly as the
column-wise pandas calls raise for the whole batch. -/
def rowOfParts : List (List Char) → Option BarRow
  | [t, a, b, c, d, e] =>
    match parseTsModel t, parseFloat a, parseFloat b, parseFloat c,
        parseFloat d, parseFloat e with
    | some ts, some o, some hi, some lo, some cl, some v =>
      some ⟨ts, o, hi, lo, cl, v⟩
    | _, _, _, _, _, _ => none
  | _ => none

/-- All rows of the batch, in arrival order; `none` if any conversion
fails. -/
def rowsOf : List (List (List Char)) → Option (List BarRow)
  | [] => some []
  | p :: ps =>
    match rowOfParts p, rowsOf ps with
    | some r, some rs => some (r :: rs)
    | _, _ => none

/-- Line extraction of `process_historical_data` lines 20-21: split on
line breaks, strip each line, drop the empty ones. -/
def histLines (d : List Char) : List (List Char) :=
  ((splitOnChar '\n' d).map pyStrip).filter (fun l => l ≠ [])

/-- `process_historical_data` (src/historical_data.py): split on line
breaks, strip, drop empty lines, fail on an empty batch, keep 6-field
lines, fail if none parse, convert the columns. The OHLC / negative-volume
validation of lines 90-118 only logs warnings: rows that violate the OHLC
invariant are returned unchanged, and nothing is sorted. -/
def process_historical_data (dataStr : List Char) : Except String Df :=
  let lines := histLines dataStr
  if lines = [] then .error "No valid data lines found in historical data"
  else
    let parsed := lines.filterMap parseHistLine
    if parsed = [] then .error "No valid data could be parsed from historical data"
    else
      match rowsOf parsed with
      | some rows => .ok rows
      | none => .error "column type conversion failed"

/-! ## Indicators and feature preparation (src/indicators.py, src/model.py)

The numerical series themselves (diff/clip/ewm for RSI, ewm for EMA,
cumulative price-volume ratio for VWAP) are pandas floating-point
computations — the spec's external Feature Engine — and enter as opaque
collaborator functions. The column accesses, which decide success or
failure, are embedded exactly: `indicators.py` reads the lowercase
`"close"` / `"volume"` columns by default, while `model.prepare_features`
passes the frame whose columns are the capitalized
`Timestamp/Open/High/Low/Close/Volume`. -/

/-- The collaborator-supplied numeric series of the Feature Engine.
`Option ℚ` values model NaN entries of the pandas series. -/
structure FeatNumerics where
  rsi : List ℚ → List (Option ℚ)
  ema : ℕ → List ℚ → List (Option ℚ)
  vwap : List ℚ → List ℚ → List (Option ℚ)

/-- `indicators.calculate_rsi(df, period=None, price_col="close")`: the
period defaulting and the `df[price_col]` access are embedded (the source
default for `price_col` is the lowercase `"close"`; callers rely on it).
The diff/clip/ewm arithmetic is the collaborator `N.rsi`. -/
def calculate_rsi (N : FeatNumerics) (df : Df) (price_col : String) :
    Except String (List (Option ℚ)) := do
  let prices ← dfCol df price_col
  pure (N.rsi prices)

/-- `indicators.calculate_ema(df, period, price_col="close")`. -/
def calculate_ema (N : FeatNumerics) (df : Df) (period : ℕ)
    (price_col : String) : Except String (List (Option ℚ)) := do
  let prices ← dfCol df price_col
  pure (N.ema period prices)

/-- `indicators.calculate_vwap(df, window=None)`: reads the lowercase
`df['close']` and `df['volume']` columns. -/
def calculate_vwap (N : FeatNumerics) (df : Df) :
    Except String (List (Option ℚ)) := do
  let closes ← dfCol df "close"
  let vols ← dfCol df "volume"
  pure (N.vwap closes vols)

/-- `model.prepare_features(df)` (src/model.py lines 15-56): compute RSI,
EMA_Fast, EMA_Slow, VWAP through the indicator functions (with their
lowercase default `price_col`), then the derived columns
EMA_Diff / Price_VWAP_Diff / Lagged_Return / Above_VWAP, and return the
frame with the feature-name list. The derived columns are arithmetic on
the collaborator series and are consumed only by collaborator scoring, so
the row frame is returned unchanged; any exception propagates to the
caller, as in the source. -/
def prepare_features (N : FeatNumerics) (df : Df) :
    Except String (Df × List String) := do
  let _rsi ← calculate_rsi N df "close"
  let _emaFast ← calculate_ema N df EMA_FAST "close"
  let _emaSlow ← calculate_ema N df EMA_SLOW "close"
  let _vwap ← calculate_vwap N df
  pure (df, ["RSI", "EMA_Diff", "Price_VWAP_Diff", "Lagged_Return", "Above_VWAP"])

/-! ## Model training (src/model.py, `train_model`) -/

/-- `model.train_model(df, features)` (lines 60-111): the argument
validation and the minimum-row threshold. `usable` is
`len(df.iloc[-TRAINING_WINDOW:].dropna())` — it depends on the NaN pattern
of the collaborator feature columns, so it is received from the
collaborator — and `fitOutcome` is the seeded train/test split plus the
XGBoost fit; fitted model handles are numbered by naturals. -/
def train_model (usable : Df → ℕ) (fitOutcome : Df → Except String ℕ)
    (df : Df) (features : Option (List String)) : Except String ℕ :=
  match features with
  | none => .error "Features list cannot be None or empty"
  | some fs =>
    if fs = [] then .error "Features list cannot be None or empty"
    else if df = [] then .error "DataFrame cannot be None or empty"
    else if usable df < 100 then .error "Insufficient training data"
    else fitOutcome df

/-! ## Signal generation (src/signal_generator.py) -/

/-- `confidence_threshold = 0.6` (signal_generator.py line 46): the fixed
minimum confidence for trade signals. -/
def confidence_threshold : ℚ := mkRat 6 10

/-- `np.max(probabilities)` for the (nonempty) class-probability vector. -/
def maxProb : List ℚ → ℚ
  | [] => 0
  | x :: xs => xs.foldl max x

/-- The decision core of `generate_signals` (lines 44-105): the confidence
gate against `confidence_threshold`, then the class mapping
(0=Hold, 1=Buy, 2=Sell) with the VWAP / RSI market-context filters. -/
def signalDecision (prediction : ℕ) (probabilities : List ℚ)
    (price vwap rsi : ℚ) : String :=
  if maxProb probabilities < confidence_threshold then "HOLD"
  else if prediction = 1 then
    if vwap < price ∧ rsi < 70 then "BUY" else "HOLD"
  else if prediction = 2 then
    if price < vwap ∧ 30 < rsi then "SELL" else "HOLD"
  else "HOLD"

/-- `df['Close'].iloc[-1]` of the processed frame. -/
def lastClose (df : Df) : ℚ := ((df.map BarRow.cl).getLast?).getD 0

/-- The collaborator scoring functions of `generate_signals`: the model's
`predict` / `predict_proba` on the latest feature row, the last VWAP / RSI
values of the collaborator columns, and whether the latest feature row
survives `dropna`. -/
structure ScoreFns where
  predict : ℕ → Df → ℕ
  predictProba : ℕ → Df → List ℚ
  lastVwap : Df → ℚ
  lastRsi : Df → ℚ
  latestValid : Df → Bool

/-- `generate_signals(df, model, features)` (src/signal_generator.py):
prepare features on a copy, drop the latest row if any feature is NaN,
score, decide. Every exception inside the body — in particular
`prepare_features` raising — is caught by the final handler and yields
`"HOLD"`. -/
def generate_signals (N : FeatNumerics) (S : ScoreFns) (df : Df)
    (model : ℕ) : String :=
  match prepare_features N df with
  | .error _ => "HOLD"
  | .ok (dfP, _feats) =>
    if dfP = [] then "HOLD"
    else if S.latestValid dfP = false then "HOLD"
    else
      signalDecision (S.predict model dfP) (S.predictProba model dfP)
        (lastClose dfP) (S.lastVwap dfP) (S.lastRsi dfP)

/-! ## The per-connection session machine (src/tcp_connection.py,
`handle_client`) -/

/-- The OHLC relationship check of tcp_connection line 172:
`0 < low <= high and low <= open_price <= high and low <= close <= high`. -/
def validOhlc (o hi lo cl : ℚ) : Prop :=
  0 < lo ∧ lo ≤ hi ∧ lo ≤ o ∧ o ≤ hi ∧ lo ≤ cl ∧ cl ≤ hi

instance (o hi lo cl : ℚ) : Decidable (validOhlc o hi lo cl) := by
  unfold validOhlc
  infer_instance

/-- The range check of tcp_connection line 176:
`price <= 0 or price > 100000`. -/
def priceOutOfRange (p : ℚ) : Prop := p ≤ 0 ∨ 100000 < p

instance (p : ℚ) : Decidable (priceOutOfRange p) := by
  unfold priceOutOfRange
  infer_instance

/-- `map(float, [open_str, high_str, low_str, close_str, volume_str])`:
all five fields must convert. -/
def parseNumeric5 (fields : List (List Char)) :
    Option (ℚ × ℚ × ℚ × ℚ × ℚ) :=
  match fields with
  | [a, b, c, d, e] =>
    match parseFloat a, parseFloat b, parseFloat c, parseFloat d,
        parseFloat e with
    | some o, some hi, some lo, some cl, some v => some (o, hi, lo, cl, v)
    | _, _, _, _, _ => none
  | _ => none

/-- Outcome of the real-time branch for one line: a rejection with the
response the source sends, or an accepted bar. -/
inductive RTResult where
  | reject : String → RTResult
  | accept : BarRow → RTResult
deriving DecidableEq, Repr

/-- The real-time branch of `handle_client` (tcp_connection lines 132-204):
fewer than 5 comma fields responds `ERROR`; 5 fields synthesize the
timestamp from the current time `now`; 6 fields carry the timestamp first;
more respond `INVALID_DATA`; then float conversion, the OHLC, range and
volume validations, and the timestamp parse, any failure of which responds
`INVALID_DATA`. -/
def realTimeParse (now : ℚ) (msg : List Char) : RTResult :=
  let parts := splitOnChar ',' msg
  if parts.length < 5 then RTResult.reject "ERROR"
  else if parts.length = 5 ∨ parts.length = 6 then
    let tsRes : Option ℚ :=
      if parts.length = 5 then some now else parseTsModel (parts.headD [])
    let numFields := if parts.length = 5 then parts else parts.tail
    match parseNumeric5 numFields with
    | none => RTResult.reject "INVALID_DATA"
    | some (o, hi, lo, cl, v) =>
      if validOhlc o hi lo cl then
        if priceOutOfRange o ∨ priceOutOfRange hi ∨ priceOutOfRange lo ∨
            priceOutOfRange cl then RTResult.reject "INVALID_DATA"
        else if v < 0 then RTResult.reject "INVALID_DATA"
        else
          match tsRes with
          | none => RTResult.reject "INVALID_DATA"
          | some t => RTResult.accept ⟨t, o, hi, lo, cl, v⟩
      else RTResult.reject "INVALID_DATA"
  else RTResult.reject "INVALID_DATA"

/-- The window append and trim shared by tcp_connection lines 197-219 and
`DataHandler._add_bar_to_dataframe`: concatenate one row; if the length
then exceeds `TRAINING_WINDOW * 2`, keep only the most recent
`TRAINING_WINDOW` rows (`df.tail(TRAINING_WINDOW)`). -/
def appendBar (df : Df) (bar : BarRow) : Df :=
  let df1 := df ++ [bar]
  if TRAINING_WINDOW * 2 < df1.length then
    df1.drop (df1.length - TRAINING_WINDOW)
  else df1

/-- The per-connection mutable state of `handle_client`: the window `df`,
the current model handle, the feature list, and
`historical_processing_complete`. -/
structure SessionState where
  df : Df
  model : Option ℕ
  features : Option (List String)
  histComplete : Bool
deriving DecidableEq, Repr

/-- `handle_client`'s fresh per-connection state. -/
def initialSession : SessionState :=
  { df := [], model := none, features := none, histComplete := false }

/-- The collaborator operations the session calls: feature preparation,
model training, and signal generation (the source's `prepare_features`,
`train_model`, `generate_signals`). -/
structure Collab where
  prepare : Df → Except String (Df × List String)
  train : Df → Option (List String) → Except String ℕ
  signal : Df → ℕ → Option (List String) → String

/-- One iteration of the `for message in read_message()` loop of
`handle_client` (tcp_connection lines 73-313) for one stripped, nonempty
message: the historical branch if the message contains the delimiter
(process, prepare, train; any failure resets
`historical_processing_complete` and responds `HISTORICAL_ERROR`;
assignments that already happened before the failing call survive, as in
the source), else the real-time branch (validate, append + trim, respond
with a signal when historical processing is complete and a model exists
and `LEARNING` otherwise, then — after the response — retrain when the
window length is a multiple of `RETRAIN_INTERVAL`, keeping the old model
on retrain failure). Returns the new state and the responses sent. -/
def stepMsg (C : Collab) (now : ℚ) (s : SessionState) (msg : List Char) :
    SessionState × List String :=
  if containsDelim msg then
    match process_historical_data (beforeDelim msg) with
    | .error _ => ({ s with histComplete := false }, ["HISTORICAL_ERROR"])
    | .ok df0 =>
      match C.prepare df0 with
      | .error _ =>
        ({ s with df := df0, histComplete := false }, ["HISTORICAL_ERROR"])
      | .ok (df1, feats) =>
        match C.train df1 (some feats) with
        | .error _ =>
          ({ s with df := df1, features := some feats, histComplete := false },
           ["HISTORICAL_ERROR"])
        | .ok m =>
          ({ df := df1, model := some m, features := some feats,
             histComplete := true }, ["HISTORICAL_PROCESSED"])
  else
    match realTimeParse now msg with
    | RTResult.reject r => (s, [r])
    | RTResult.accept bar =>
      let df1 := appendBar s.df bar
      let resp :=
        match s.model with
        | some m => if s.histComplete then C.signal df1 m s.features
                    else "LEARNING"
        | none => "LEARNING"
      let s1 : SessionState := { s with df := df1 }
      let s2 :=
        if df1.length % RETRAIN_INTERVAL = 0 then
          match C.train df1 s.features with
          | .ok m2 => { s1 with model := some m2 }
          | .error _ => s1
        else s1
      (s2, [resp])

/-- The whole message loop: each message arrives with the wall-clock time
used to synthesize missing timestamps; responses are concatenated in
arrival order. -/
def sessionRun (C : Collab) :
    SessionState → List (ℚ × List Char) → SessionState × List String
  | s, [] => (s, [])
  | s, (now, msg) :: rest =>
    let p := stepMsg C now s msg
    let q := sessionRun C p.1 rest
    (q.1, p.2 ++ q.2)

/-- `read_message` (tcp_connection lines 42-70) on a payload delivered as
one chunk: every complete newline-terminated line, stripped, with empty
lines skipped, becomes one message; a trailing partial line stays
buffered. -/
def streamMessages (payload : List Char) : List (List Char) :=
  ((extractLines payload).1.map pyStrip).filter (fun l => l ≠ [])

/-- The session machine instantiated with the embedded collaborators of
this repository: `prepare_features`, `train_model` and `generate_signals`
from src/model.py and src/signal_generator.py, themselves parameterized
only by the external numeric collaborators. -/
def realCollab (N : FeatNumerics) (S : ScoreFns) (usable : Df → ℕ)
    (fitOutcome : Df → Except String ℕ) : Collab where
  prepare := prepare_features N
  train := train_model usable fitOutcome
  signal := fun df m _feats => generate_signals N S df m

/-! ## Concrete collaborator instances used by witnesses -/

/-- Trivial indicator numerics for concrete runs. -/
def probeN : FeatNumerics := ⟨fun _ => [], fun _ _ => [], fun _ _ => []⟩

/-- Trivial scoring functions for concrete runs. -/
def probeS : ScoreFns :=
  ⟨fun _ _ => 0, fun _ _ => [], fun _ => 0, fun _ => 0, fun _ => true⟩

/-- An arbitrary session collaborator for concrete runs. -/
def probeCollab : Collab :=
  { prepare := fun df => .ok (df, ["F"])
  , train := fun _ _ => .ok 0
  , signal := fun _ _ _ => "HOLD" }

/-! ## C9 — window bound and trim -/

/-- C9: after every append the window length is at most
`TRAINING_WINDOW * 2`; whenever the bound would be exceeded the window is
trimmed to exactly the `TRAINING_WINDOW` most recent rows, in order (the
suffix of the appended sequence obtained by dropping all older rows). -/
theorem C9_window_append_bound (df : Df) (bar : BarRow) :
    (appendBar df bar).length ≤ TRAINING_WINDOW * 2 ∧
    (TRAINING_WINDOW * 2 < df.length + 1 →
      appendBar df bar = (df ++ [bar]).drop (df.length + 1 - TRAINING_WINDOW) ∧
      (appendBar df bar).length = TRAINING_WINDOW) := by
  have hlen : (df ++ [bar]).length = df.length + 1 := by simp
  have htw : TRAINING_WINDOW = 5000 := rfl
  unfold appendBar
  by_cases h : TRAINING_WINDOW * 2 < (df ++ [bar]).length
  · simp only [if_pos h]
    rw [hlen] at h
    refine ⟨?_, fun _ => ⟨by rw [hlen], ?_⟩⟩
    · simp only [List.length_drop, hlen]
      omega
    · simp only [List.length_drop, hlen]
      omega
  · simp only [if_neg h]
    rw [hlen] at h
    refine ⟨by omega, fun hgt => absurd hgt h⟩

/-- A fixed bar used in concrete windows. -/
def probeBar : BarRow := ⟨0, 1, 2, 1, 1, 1⟩

/-- Witness for C9 on a full window of `TRAINING_WINDOW * 2` rows. -/
theorem C9_witness :
    (appendBar (List.replicate (TRAINING_WINDOW * 2) probeBar) probeBar).length
        = TRAINING_WINDOW ∧
    (appendBar [] probeBar).length ≤ TRAINING_WINDOW * 2 :=
  ⟨((C9_window_append_bound (List.replicate (TRAINING_WINDOW * 2) probeBar)
      probeBar).2 (by simp)).2,
   (C9_window_append_bound [] probeBar).1⟩

/-! ## C4 — OHLC invariant of stored bars -/

/-- A historical batch line whose high (5) is below its low (20). -/
def c4Batch : List Char := "20240101,10,5,20,10,1".toList

/-- C4 counterexample: the bulk-load path stores a bar with high < low —
`process_historical_data` only logs OHLC violations, so a record violating
the invariant is accepted into the window, refuting the claim that such
records are always rejected and never stored. -/
theorem C4_counterexample :
    process_historical_data c4Batch
      = .ok [{ ts := 20240101, o := 10, hi := 5, lo := 20, cl := 10, vol := 1 }] ∧
    (5 : ℚ) < 20 := by
  constructor
  · decide
  · decide

/-- C4 amended: every bar accepted through the real-time line path
satisfies `low ≤ min(open, close)`, `max(open, close) ≤ high`, `low > 0`
and `volume ≥ 0` — in particular a real-time record with high < low is
always rejected — while historical-batch rows are stored after only
field-count and numeric-parse checks (see the counterexample). -/
theorem C4_amended_realtime_invariant (now : ℚ) (msg : List Char)
    (bar : BarRow) (hacc : realTimeParse now msg = RTResult.accept bar) :
    0 < bar.lo ∧ bar.lo ≤ bar.o ∧ bar.lo ≤ bar.cl ∧ bar.o ≤ bar.hi ∧
      bar.cl ≤ bar.hi ∧ bar.lo ≤ bar.hi ∧ 0 ≤ bar.vol := by
  simp only [realTimeParse] at hacc
  split at hacc
  · exact absurd hacc (by simp)
  · split at hacc
    · split at hacc
      · exact absurd hacc (by simp)
      · rename_i o hi lo cl v heq
        split at hacc
        · rename_i hvalid
          split at hacc
          · exact absurd hacc (by simp)
          · split at hacc
            · exact absurd hacc (by simp)
            · rename_i hrange hvol
              split at hacc
              · exact absurd hacc (by simp)
              · rename_i t hts
                obtain ⟨h1, h2, h3, h4, h5, h6⟩ := hvalid
                cases hacc
                exact ⟨h1, h3, h5, h4, h6, h2, le_of_not_lt hvol⟩
        · exact absurd hacc (by simp)
    · exact absurd hacc (by simp)

/-- Witness for C4 at a concrete accepted 5-field record. -/
theorem C4_witness :
    0 < (probeBar.lo) ∧ probeBar.lo ≤ probeBar.o ∧
      probeBar.lo ≤ probeBar.cl ∧ probeBar.o ≤ probeBar.hi ∧
      probeBar.cl ≤ probeBar.hi ∧ probeBar.lo ≤ probeBar.hi ∧
      0 ≤ probeBar.vol :=
  C4_amended_realtime_invariant 0 ("1,2,1,1,1".toList) probeBar (by decide)

/-! ## C6 — bulk-load ordering -/

/-- The timestamp fields of the valid (6-field) lines of a batch, in
arrival order, as an independent description of the input. -/
def arrivalTs (d : List Char) : List ℚ :=
  (histLines d).filterMap fun l =>
    (parseHistLine l).bind fun p => parseTsModel (p.headD [])

/-- The sequence is non-decreasing (timestamp-ordered). -/
def nondecreasing : List ℚ → Prop
  | [] => True
  | [_] => True
  | x :: y :: rest => x ≤ y ∧ nondecreasing (y :: rest)

instance nondecreasingDec : (l : List ℚ) → Decidable (nondecreasing l)
  | [] => by unfold nondecreasing; infer_instance
  | [_] => by unfold nondecreasing; infer_instance
  | x :: y :: rest =>
    @instDecidableAnd _ _ inferInstance (nondecreasingDec (y :: rest))

theorem rowOfParts_ts (p : List (List Char)) (r : BarRow)
    (h : rowOfParts p = some r) :
    parseTsModel (p.headD []) = some r.ts := by
  unfold rowOfParts at h
  split at h
  · rename_i t a b c d e
    split at h
    · rename_i ts o hi lo cl v hts _ _ _ _ _
      cases h
      simpa using hts
    · exact absurd h (by simp)
  · exact absurd h (by simp)

theorem rowsOf_forall : ∀ (ps : List (List (List Char))) (rows : List BarRow),
    rowsOf ps = some rows →
    List.Forall₂ (fun p r => rowOfParts p = some r) ps rows := by
  intro ps
  induction ps with
  | nil =>
    intro rows h
    cases h
    exact List.Forall₂.nil
  | cons p ps ih =>
    intro rows h
    unfold rowsOf at h
    split at h
    · rename_i r rs hr hrs
      cases h
      exact List.Forall₂.cons hr (ih rs hrs)
    · exact absurd h (by simp)

theorem forall2_map_ts {ps : List (List (List Char))} {rows : List BarRow}
    (h : List.Forall₂ (fun p r => rowOfParts p = some r) ps rows) :
    rows.map BarRow.ts
      = ps.filterMap (fun p => parseTsModel (p.headD [])) := by
  induction h with
  | nil => rfl
  | cons hpr _ ih =>
    rename_i p r ps rows _
    have hts := rowOfParts_ts p r hpr
    rw [List.map_cons, List.filterMap_cons, hts, ih]

/-- A two-line batch whose timestamps arrive out of order. -/
def c6Batch : List Char := "20240102,1,2,1,1,1\n20240101,1,2,1,1,1".toList

/-- C6 counterexample: `process_historical_data` performs no sort — the
out-of-order batch is stored in arrival order, so after bulk load the
window is not non-decreasing by timestamp. -/
theorem C6_counterexample :
    process_historical_data c6Batch
      = .ok [{ ts := 20240102, o := 1, hi := 2, lo := 1, cl := 1, vol := 1 },
             { ts := 20240101, o := 1, hi := 2, lo := 1, cl := 1, vol := 1 }] ∧
    ¬ nondecreasing
        (([{ ts := 20240102, o := 1, hi := 2, lo := 1, cl := 1, vol := 1 },
           { ts := 20240101, o := 1, hi := 2, lo := 1, cl := 1, vol := 1 }] :
          Df).map BarRow.ts) := by
  constructor
  · decide
  · decide

/-- C6 amended: bulk load stores the valid lines in arrival order — the
stored timestamp sequence is exactly the input's valid-line timestamp
sequence, unsorted — so the loaded window is non-decreasing by timestamp
exactly when the input batch already was. -/
theorem C6_amended_arrival_order (d : List Char) (rows : Df)
    (hok : process_historical_data d = .ok rows) :
    rows.map BarRow.ts = arrivalTs d ∧
    (nondecreasing (arrivalTs d) → nondecreasing (rows.map BarRow.ts)) := by
  have hmain : rows.map BarRow.ts = arrivalTs d := by
    simp only [process_historical_data] at hok
    split at hok
    · exact absurd hok (by simp)
    · split at hok
      · exact absurd hok (by simp)
      · split at hok
        · rename_i rows' hrows
          cases hok
          rw [forall2_map_ts (rowsOf_forall _ _ hrows)]
          unfold arrivalTs
          rw [← List.filterMap_filterMap]
        · exact absurd hok (by simp)
  exact ⟨hmain, fun hc => hmain ▸ hc⟩

/-- A two-line batch in timestamp order, for the witness. -/
def c6Sorted : List Char := "20240101,1,2,1,1,1\n20240102,1,2,1,1,1".toList

/-- Witness for C6 at the concrete sorted batch. -/
theorem C6_witness :
    (([{ ts := 20240101, o := 1, hi := 2, lo := 1, cl := 1, vol := 1 },
       { ts := 20240102, o := 1, hi := 2, lo := 1, cl := 1, vol := 1 }] :
        Df).map BarRow.ts = arrivalTs c6Sorted) ∧
    nondecreasing
      (([{ ts := 20240101, o := 1, hi := 2, lo := 1, cl := 1, vol := 1 },
         { ts := 20240102, o := 1, hi := 2, lo := 1, cl := 1, vol := 1 }] :
        Df).map BarRow.ts) :=
  ⟨(C6_amended_arrival_order c6Sorted _ (by decide)).1,
   (C6_amended_arrival_order c6Sorted _ (by decide)).2 (by decide)⟩

/-! ## C8 — the confidence threshold -/

/-- The source's `generate_signals` maintains no confidence history and
gates on the literal `confidence_threshold = 0.6` (signal_generator.py
lines 44-46); viewed through the spec's interface — a dynamic threshold as
a function of the recent confidence history — the source's threshold is
therefore this constant function of the history. -/
def confidenceThresholdFn : List ℚ → ℚ := fun _history => confidence_threshold

/-- C8 counterexample: at the concrete poor recent-performance history
(three scores of 0.1) the threshold is not raised above its empty-history
value — it is the same constant — refuting the claimed raise-on-poor /
lower-on-good adaptation. -/
theorem C8_counterexample :
    confidenceThresholdFn [mkRat 1 10, mkRat 1 10, mkRat 1 10]
        = confidenceThresholdFn [] ∧
    ¬ confidenceThresholdFn []
        < confidenceThresholdFn [mkRat 1 10, mkRat 1 10, mkRat 1 10] :=
  ⟨rfl, lt_irrefl _⟩

/-- C8 amended: the signal policy's confidence threshold is the constant
0.6 for every history — so it trivially lies in the band [0.5, 0.7] and
equals its own empty-history value, but it is never raised or lowered —
and any probability vector whose maximum is below it yields `HOLD`. -/
theorem C8_amended_constant_threshold :
    (∀ h : List ℚ, confidenceThresholdFn h = confidence_threshold) ∧
    mkRat 1 2 ≤ confidence_threshold ∧ confidence_threshold ≤ mkRat 7 10 ∧
    (∀ (p : ℕ) (probs : List ℚ) (price vwap rsi : ℚ),
      maxProb probs < confidence_threshold →
      signalDecision p probs price vwap rsi = "HOLD") := by
  refine ⟨fun _ => rfl, by decide, by decide, ?_⟩
  intro p probs price vwap rsi hlt
  unfold signalDecision
  rw [if_pos hlt]

/-- Witness for C8 at a concrete below-threshold probability vector. -/
theorem C8_witness :
    signalDecision 1 [mkRat 1 2, mkRat 1 4, mkRat 1 4] 2 1 50 = "HOLD" :=
  C8_amended_constant_threshold.2.2.2 1 [mkRat 1 2, mkRat 1 4, mkRat 1 4]
    2 1 50 (by decide)

/-! ## C5 — bar-line parsing and non-fatal drops -/

theorem realTimeParse_accept_ts (now : ℚ) (msg : List Char) (bar : BarRow)
    (hacc : realTimeParse now msg = RTResult.accept bar) :
    ((splitOnChar ',' msg).length = 5 ∧ bar.ts = now) ∨
    ((splitOnChar ',' msg).length = 6 ∧
      parseTsModel ((splitOnChar ',' msg).headD []) = some bar.ts) := by
  by_cases hlen5 : (splitOnChar ',' msg).length = 5
  · left
    refine ⟨hlen5, ?_⟩
    simp only [realTimeParse, hlen5] at hacc
    norm_num at hacc
    split at hacc
    · exact absurd hacc (by simp)
    · split at hacc
      · split at hacc
        · exact absurd hacc (by simp)
        · split at hacc
          · exact absurd hacc (by simp)
          · cases hacc
            rfl
      · exact absurd hacc (by simp)
  · right
    simp only [realTimeParse] at hacc
    split at hacc
    · exact absurd hacc (by simp)
    · rename_i hnotlt
      split at hacc
      · rename_i h56
        have hlen6 : (splitOnChar ',' msg).length = 6 := by
          rcases h56 with h | h
          · exact absurd h hlen5
          · exact h
        refine ⟨hlen6, ?_⟩
        split at hacc
        · exact absurd hacc (by simp)
        · split at hacc
          · split at hacc
            · exact absurd hacc (by simp)
            · split at hacc
              · exact absurd hacc (by simp)
              · split at hacc
                · exact absurd hacc (by simp)
                · rename_i hts
                  cases hacc
                  exact hts
          · exact absurd hacc (by simp)
      · exact absurd hacc (by simp)

/-- C5: field-count and numeric handling of real-time bar lines. With the
comma fields of the message written `parts`: fewer than 5 fields respond
`ERROR` with the session state unchanged; more than 6 respond
`INVALID_DATA` unchanged; 5 or 6 fields whose numeric conversion fails
respond `INVALID_DATA` unchanged; every rejection leaves the state intact
(so the next valid line is processed exactly as if the dropped line had
never arrived — last conjunct); an accepted record is appended to the
window, a 5-field record with the current time `now` synthesized as its
timestamp and a 6-field record with its leading field parsed as the
timestamp. -/
theorem C5_bar_line_parsing (C : Collab) (s : SessionState) (now : ℚ)
    (msg : List Char) (hnd : containsDelim msg = false) :
    ((splitOnChar ',' msg).length < 5 →
        stepMsg C now s msg = (s, ["ERROR"])) ∧
    (6 < (splitOnChar ',' msg).length →
        stepMsg C now s msg = (s, ["INVALID_DATA"])) ∧
    (((splitOnChar ',' msg).length = 5 ∨ (splitOnChar ',' msg).length = 6) →
      parseNumeric5 (if (splitOnChar ',' msg).length = 5 then splitOnChar ',' msg
        else (splitOnChar ',' msg).tail) = none →
      stepMsg C now s msg = (s, ["INVALID_DATA"])) ∧
    (∀ r, realTimeParse now msg = RTResult.reject r →
        stepMsg C now s msg = (s, [r])) ∧
    (∀ bar, realTimeParse now msg = RTResult.accept bar →
        (stepMsg C now s msg).1.df = appendBar s.df bar ∧
        ((splitOnChar ',' msg).length = 5 → bar.ts = now) ∧
        ((splitOnChar ',' msg).length = 6 →
          parseTsModel ((splitOnChar ',' msg).headD []) = some bar.ts)) ∧
    (∀ rest, sessionRun C s ((now, msg) :: rest)
        = ((sessionRun C (stepMsg C now s msg).1 rest).1,
           (stepMsg C now s msg).2
             ++ (sessionRun C (stepMsg C now s msg).1 rest).2)) := by
  have hrej : ∀ r, realTimeParse now msg = RTResult.reject r →
      stepMsg C now s msg = (s, [r]) := by
    intro r hr
    simp [stepMsg, hnd, hr]
  refine ⟨?_, ?_, ?_, hrej, ?_, fun rest => rfl⟩
  · intro hlt
    refine hrej "ERROR" ?_
    simp only [realTimeParse]
    rw [if_pos hlt]
  · intro hgt
    refine hrej "INVALID_DATA" ?_
    simp only [realTimeParse]
    rw [if_neg (by omega), if_neg (by omega)]
  · intro h56 hpn
    refine hrej "INVALID_DATA" ?_
    simp only [realTimeParse]
    rw [if_neg (by omega), if_pos h56, hpn]
  · intro bar hacc
    refine ⟨?_, ?_, ?_⟩
    · simp only [stepMsg, hnd, hacc]
      norm_num
      split
      · split <;> rfl
      · rfl
    · intro hlen5
      rcases realTimeParse_accept_ts now msg bar hacc with ⟨_, h⟩ | ⟨h6, _⟩
      · exact h
      · omega
    · intro hlen6
      rcases realTimeParse_accept_ts now msg bar hacc with ⟨h5, _⟩ | ⟨_, h⟩
      · omega
      · exact h

/-- C5 counterexample: a 6-field record written in the claim's stated
field order `open,high,low,close,volume,timestamp` — here
`1,2,1,1,5,20240101`, i.e. open 1, high 2, low 1, close 1 (a valid OHLC
bar), volume 5 and a parseable trailing timestamp — is not accepted: the
code (tcp_connection.py line 154) reads the timestamp from the FIRST
field, so it takes open=2, high=1, low=1, close=5, fails the OHLC check
and rejects the record with `INVALID_DATA`. The first conjuncts state
that the fields read in the claim's order do form an acceptable bar. -/
theorem C5_counterexample :
    validOhlc 1 2 1 1 ∧ (0 : ℚ) ≤ 5 ∧
    parseTsModel ("20240101".toList) = some 20240101 ∧
    realTimeParse 0 ("1,2,1,1,5,20240101".toList)
      = RTResult.reject "INVALID_DATA" := by
  refine ⟨by decide, by decide, by decide, by decide⟩

/-- Witness for C5: the Scenario C line `100,105,95` (3 fields) is dropped
with `ERROR` and the state is unchanged. -/
theorem C5_witness :
    stepMsg probeCollab 0 initialSession ("100,105,95".toList)
      = (initialSession, ["ERROR"]) :=
  (C5_bar_line_parsing probeCollab initialSession 0 ("100,105,95".toList)
    (by decide)).1 (by decide)

/-! ## C7 — failing historical batches are non-fatal -/

/-- On the frames this program builds, `prepare_features` always raises:
its first step, `calculate_rsi`, reads the indicators' lowercase default
column `"close"`, which the capitalized OHLCV frame does not have, so the
column access raises `KeyError` regardless of the frame's contents. -/
theorem prepare_features_keyerror (N : FeatNumerics) (df : Df) :
    prepare_features N df = .error "KeyError: close" := rfl

/-- C7: a historical batch that cannot train — in particular one with
fewer than 100 usable rows — makes the session emit `HISTORICAL_ERROR`,
leaves `historical_processing_complete` false (the `AWAITING_HISTORY`
phase) and the model unchanged, and the loop goes on processing the
following messages; and the embedded `train_model` rejects any frame whose
usable row count is below 100 with `Insufficient training data`. -/
theorem C7_insufficient_rows (N : FeatNumerics) (S : ScoreFns)
    (usable : Df → ℕ) (fitOutcome : Df → Except String ℕ) (C : Collab)
    (hC : C = realCollab N S usable fitOutcome)
    (s : SessionState) (now : ℚ) (msg : List Char)
    (rest : List (ℚ × List Char))
    (hd : containsDelim msg = true)
    (hfew : ((histLines (beforeDelim msg)).filterMap parseHistLine).length
      < 100) :
    (stepMsg C now s msg).2 = ["HISTORICAL_ERROR"] ∧
    (stepMsg C now s msg).1.histComplete = false ∧
    (stepMsg C now s msg).1.model = s.model ∧
    sessionRun C s ((now, msg) :: rest)
      = ((sessionRun C (stepMsg C now s msg).1 rest).1,
         "HISTORICAL_ERROR" :: (sessionRun C (stepMsg C now s msg).1 rest).2) ∧
    (∀ (df : Df) (fs : List String), fs ≠ [] → df ≠ [] → usable df < 100 →
      train_model usable fitOutcome df (some fs)
        = .error "Insufficient training data") := by
  subst hC
  have hstep :
      (stepMsg (realCollab N S usable fitOutcome) now s msg).2
          = ["HISTORICAL_ERROR"] ∧
      (stepMsg (realCollab N S usable fitOutcome) now s msg).1.histComplete
          = false ∧
      (stepMsg (realCollab N S usable fitOutcome) now s msg).1.model
          = s.model := by
    cases hph : process_historical_data (beforeDelim msg) with
    | error e => simp [stepMsg, hd, hph]
    | ok df0 =>
      simp [stepMsg, hd, hph, realCollab, prepare_features_keyerror N df0]
  refine ⟨hstep.1, hstep.2.1, hstep.2.2, ?_, ?_⟩
  · simp only [sessionRun]
    rw [hstep.1]
    simp
  · intro df fs hfs hdf hu
    simp [train_model, hfs, hdf, hu]

/-- A one-valid-line historical message (1 < 100 usable rows). -/
def c7Msg : List Char := "20240101,1,2,1,1,1||".toList

/-- Witness for C7 at a concrete under-sized batch. -/
theorem C7_witness :
    (stepMsg (realCollab probeN probeS (fun df => df.length)
        (fun _ => Except.ok 1)) 0 initialSession c7Msg).2
      = ["HISTORICAL_ERROR"] ∧
    (stepMsg (realCollab probeN probeS (fun df => df.length)
        (fun _ => Except.ok 1)) 0 initialSession c7Msg).1.histComplete
      = false :=
  have h := C7_insufficient_rows probeN probeS (fun df => df.length)
    (fun _ => Except.ok 1) _ rfl initialSession 0 c7Msg [] (by decide)
    (by decide)
  ⟨h.1, h.2.1⟩

/-! ## C3 — retrain ordering relative to the decision -/

/-- Collaborators that number each trained model by the training-set size
and echo the model number in the emitted signal, so a trace shows which
model handle computed each decision. -/
def cexCollab : Collab :=
  { prepare := fun df => .ok (df, ["F"])
  , train := fun df _ => .ok df.length
  , signal := fun _ m _ => "SIG" ++ toString m }

/-- A one-line historical message for the C3 trace. -/
def c3Hist : List Char := "20240101,1,2,1,1,1||".toList

/-- A valid 5-field bar message for the C3 trace. -/
def c3BarMsg : List Char := "1,2,1,1,1".toList

/-- The C3 trace: one historical message, then 100 bars. -/
def c3Msgs : List (ℚ × List Char) :=
  ((0 : ℚ), c3Hist) :: List.replicate 100 ((0 : ℚ), c3BarMsg)

/-- C3 counterexample: after the historical batch installs model 1, the
bar that makes the window length a multiple of `RETRAIN_INTERVAL` (the
99th bar here; window length 100) has its decision computed from the
pre-retrain model — its response is `SIG1` even though the retrain that
its arrival triggered completes during that same step and installs model
100, as the final state after that bar shows; only the next bar's decision
(`SIG100`) uses the new model. This refutes the claim that the triggering
bar's decision is computed against the freshly retrained model. -/
theorem C3_counterexample :
    (sessionRun cexCollab initialSession c3Msgs).2
      = "HISTORICAL_PROCESSED" :: (List.replicate 99 "SIG1" ++ ["SIG100"]) ∧
    (sessionRun cexCollab initialSession
        (((0 : ℚ), c3Hist) :: List.replicate 99 ((0 : ℚ), c3BarMsg))).1.model
      = some 100 ∧
    ("SIG1" : String) ≠ "SIG100" := by
  refine ⟨by decide, by decide, by decide⟩

/-- C3 amended: for a ready session, a bar whose arrival makes the window
length a multiple of `RETRAIN_INTERVAL` is answered with a decision
computed from the model installed before the retrain; the retrain runs
after the decision inside the same step, replacing the model for later
bars (or keeping the old one on failure); and for a single connection the
responses are emitted in message-arrival order. -/
theorem C3_amended_retrain_after_decision (C : Collab) (now : ℚ)
    (s : SessionState) (msg : List Char) (bar : BarRow) (m : ℕ)
    (hhc : s.histComplete = true) (hm : s.model = some m)
    (hnd : containsDelim msg = false)
    (hacc : realTimeParse now msg = RTResult.accept bar)
    (htrig : (appendBar s.df bar).length % RETRAIN_INTERVAL = 0) :
    (stepMsg C now s msg).2 = [C.signal (appendBar s.df bar) m s.features] ∧
    (∀ m2, C.train (appendBar s.df bar) s.features = .ok m2 →
        (stepMsg C now s msg).1.model = some m2) ∧
    (∀ e, C.train (appendBar s.df bar) s.features = .error e →
        (stepMsg C now s msg).1.model = some m) ∧
    (∀ rest, sessionRun C s ((now, msg) :: rest)
        = ((sessionRun C (stepMsg C now s msg).1 rest).1,
           (stepMsg C now s msg).2
             ++ (sessionRun C (stepMsg C now s msg).1 rest).2)) := by
  refine ⟨?_, ?_, ?_, fun rest => rfl⟩
  · simp [stepMsg, hnd, hacc, hhc, hm, htrig]
  · intro m2 htr
    simp [stepMsg, hnd, hacc, htrig, htr]
  · intro e htr
    simp [stepMsg, hnd, hacc, htrig, htr, hm]

/-- A ready state with 99 bars, model 1. -/
def c3State99 : SessionState :=
  { df := List.replicate 99 probeBar, model := some 1,
    features := some ["F"], histComplete := true }

/-- Witness for C3 at the concrete triggering bar. -/
theorem C3_witness :
    (stepMsg cexCollab 0 c3State99 c3BarMsg).2
      = [cexCollab.signal (appendBar c3State99.df probeBar) 1
          c3State99.features] :=
  (C3_amended_retrain_after_decision cexCollab 0 c3State99 c3BarMsg probeBar 1
    rfl rfl (by decide) (by decide) (by decide)).1

/-! ## C2 — the Scenario A session -/

/-- One valid 6-field bar line of the Scenario A payload. -/
def c2Line : List Char := "20240101,1,2,1,1,1\n".toList

/-- The Scenario A payload: 150 newline-terminated valid 6-field lines,
then the batch delimiter. -/
def c2Payload : List Char :=
  (List.replicate 150 c2Line).flatten ++ "||\n".toList

/-- The messages `read_message` yields for the Scenario A payload. -/
def c2Msgs : List (ℚ × List Char) :=
  (streamMessages c2Payload).map (fun msg => ((0 : ℚ), msg))

/-- The bar line as a message (no terminating newline). -/
def c2Msg6 : List Char := "20240101,1,2,1,1,1".toList

/-- The bar the line parses to. -/
def c2Bar : BarRow := ⟨20240101, 1, 2, 1, 1, 1⟩

theorem sessionRun_singleton (C : Collab) (s : SessionState) (now : ℚ)
    (msg : List Char) :
    sessionRun C s [(now, msg)]
      = ((stepMsg C now s msg).1, (stepMsg C now s msg).2) := by
  simp [sessionRun]

theorem sessionRun_append (C : Collab) :
    ∀ (xs ys : List (ℚ × List Char)) (s : SessionState),
      sessionRun C s (xs ++ ys)
        = ((sessionRun C (sessionRun C s xs).1 ys).1,
           (sessionRun C s xs).2 ++ (sessionRun C (sessionRun C s xs).1 ys).2) := by
  intro xs
  induction xs with
  | nil => intro ys s; simp [sessionRun]
  | cons x xs ih =>
    intro ys s
    obtain ⟨now, msg⟩ := x
    simp [sessionRun, ih, List.append_assoc]

theorem extractLines_line_cons (body z : List Char)
    (h : ∀ c ∈ body, c ≠ '\n') :
    extractLines ((body ++ ['\n']) ++ z)
      = (body :: (extractLines z).1, (extractLines z).2) := by
  have hpre := splitLinesAux_prefix_no_nl body h [] ('\n' :: z)
  simp only [extractLines]
  rw [List.append_assoc]
  simp only [List.singleton_append]
  rw [hpre]
  simp [splitLinesAux]

theorem extractLines_c2_replicate :
    ∀ (n : ℕ) (z : List Char),
      extractLines ((List.replicate n c2Line).flatten ++ z)
        = (List.replicate n c2Msg6 ++ (extractLines z).1, (extractLines z).2) := by
  intro n
  induction n with
  | zero => intro z; simp
  | succ n ih =>
    intro z
    have hsplit : (List.replicate (n + 1) c2Line).flatten ++ z
        = (c2Msg6 ++ ['\n']) ++ ((List.replicate n c2Line).flatten ++ z) := by
      rw [List.replicate_succ]
      simp only [List.flatten_cons, List.append_assoc]
      rfl
    rw [hsplit, extractLines_line_cons _ _ (by decide), ih]
    simp [List.replicate_succ]

set_option maxRecDepth 40000 in
theorem streamMessages_c2 :
    streamMessages c2Payload = List.replicate 150 c2Msg6 ++ [['|', '|']] := by
  unfold streamMessages c2Payload
  rw [extractLines_c2_replicate 150 ("||\n".toList)]
  have hdelim : extractLines ("||\n".toList) = ([['|', '|']], []) := by decide
  rw [hdelim]
  simp only [List.map_append, List.filter_append]
  have h1 : (List.replicate 150 c2Msg6).map pyStrip = List.replicate 150 c2Msg6 := by
    rw [List.map_replicate]
    decide
  have h2 : ((List.replicate 150 c2Msg6).filter (fun l => l ≠ [])) = List.replicate 150 c2Msg6 := by
    refine List.filter_eq_self.2 ?_
    intro a ha
    have : a = c2Msg6 := List.eq_of_mem_replicate ha
    subst this
    decide
  rw [h1, h2]
  decide

/-- One real-time step of the embedded session while no model exists:
responds `LEARNING`, only the window changes (the retrain attempt fails on
the absent feature list and keeps no model). -/
theorem stepMsg_learning (N : FeatNumerics) (S : ScoreFns) (usable : Df → ℕ)
    (fitOutcome : Df → Except String ℕ) (s : SessionState)
    (hm : s.model = none) (hf : s.features = none) :
    stepMsg (realCollab N S usable fitOutcome) 0 s c2Msg6
      = ({ s with df := appendBar s.df c2Bar }, ["LEARNING"]) := by
  have hnd : containsDelim c2Msg6 = false := by decide
  have hacc : realTimeParse 0 c2Msg6 = RTResult.accept c2Bar := by decide
  simp only [stepMsg, hnd, Bool.false_eq_true, if_false, hacc, hm, hf]
  split
  · simp [realCollab, train_model]
  · rfl

/-- A run of `n` bar lines with no model and no features: all responses
are `LEARNING`; model, features and phase are unchanged. -/
theorem learning_run (N : FeatNumerics) (S : ScoreFns) (usable : Df → ℕ)
    (fitOutcome : Df → Except String ℕ) :
    ∀ (n : ℕ) (s : SessionState), s.model = none → s.features = none →
      (sessionRun (realCollab N S usable fitOutcome) s
          (List.replicate n ((0 : ℚ), c2Msg6))).2
        = List.replicate n "LEARNING" ∧
      (sessionRun (realCollab N S usable fitOutcome) s
          (List.replicate n ((0 : ℚ), c2Msg6))).1.model = none ∧
      (sessionRun (realCollab N S usable fitOutcome) s
          (List.replicate n ((0 : ℚ), c2Msg6))).1.features = none ∧
      (sessionRun (realCollab N S usable fitOutcome) s
          (List.replicate n ((0 : ℚ), c2Msg6))).1.histComplete
        = s.histComplete := by
  intro n
  induction n with
  | zero => intro s hm hf; simp [sessionRun, hm, hf]
  | succ n ih =>
    intro s hm hf
    rw [List.replicate_succ]
    have hstep := stepMsg_learning N S usable fitOutcome s hm hf
    have ihs := ih { s with df := appendBar s.df c2Bar } hm hf
    simp [sessionRun, hstep, ihs.1, ihs.2.1, ihs.2.2.1, ihs.2.2.2,
      List.replicate_succ]

set_option maxRecDepth 1000 in
/-- C2, evaluated at the claimed scenario: the code answers the
delimiter-terminated historical payload of 150 valid 6-field lines with
150 `LEARNING` responses and one `HISTORICAL_ERROR`, and the session never
reaches the ready phase and never installs a model. Two defects produce
this: `read_message` splits the stream on newlines before any delimiter
check, so the 150 batch lines arrive as separate real-time messages and
the delimiter message carries an empty batch; and even when a batch does
reach feature preparation, `prepare_features` raises `KeyError: 'close'`
(last conjunct), because the indicator functions read lowercase column
names from the capitalized frame. The claim's `HISTORICAL_PROCESSED` /
`READY` outcome is unreachable. -/
theorem C2_code_bug (N : FeatNumerics) (S : ScoreFns) (usable : Df → ℕ)
    (fitOutcome : Df → Except String ℕ) :
    (sessionRun (realCollab N S usable fitOutcome) initialSession c2Msgs).2
      = List.replicate 150 "LEARNING" ++ ["HISTORICAL_ERROR"] ∧
    (sessionRun (realCollab N S usable fitOutcome) initialSession
        c2Msgs).1.histComplete = false ∧
    (sessionRun (realCollab N S usable fitOutcome) initialSession
        c2Msgs).1.model = none ∧
    (∀ df : Df, prepare_features N df = .error "KeyError: close") := by
  have hmsgs : c2Msgs
      = List.replicate 150 ((0 : ℚ), c2Msg6) ++ [((0 : ℚ), ['|', '|'])] := by
    unfold c2Msgs
    rw [streamMessages_c2]
    rw [List.map_append, List.map_replicate]
    rfl
  have hrun := learning_run N S usable fitOutcome 150 initialSession rfl rfl
  have hdelimStep : ∀ s : SessionState, s.model = none →
      stepMsg (realCollab N S usable fitOutcome) 0 s ['|', '|']
        = ({ s with histComplete := false }, ["HISTORICAL_ERROR"]) := by
    intro s _
    have hd : containsDelim ['|', '|'] = true := by decide
    have hph : process_historical_data (beforeDelim ['|', '|'])
        = .error "No valid data lines found in historical data" := by decide
    simp [stepMsg, hd, hph]
  rw [hmsgs, sessionRun_append, sessionRun_singleton]
  revert hrun
  generalize sessionRun (realCollab N S usable fitOutcome) initialSession
    (List.replicate 150 ((0 : ℚ), c2Msg6)) = p
  intro hrun
  rw [hdelimStep p.1 hrun.2.1, hrun.1]
  exact ⟨rfl, rfl, hrun.2.1, fun df => prepare_features_keyerror N df⟩

end XgbSpec
